import Mathlib

/-!
# Verification of the tmux_mcp policy-gated execution pipeline

A shallow embedding of the core of the `tmux_mcp` repository:

* `safety.py` — `SafetyConfig`, `SafetyEvaluation`, `SafetyEvaluator.evaluate`;
* `command_bridge.py` — `CommandBridge` (`submit_command`, `execute_pending`,
  `reject_pending`, `_execute`, `_calculate_delta`, `next_command_id`);
* `logging_utils.py` — `StructuredLogWriter.append` / `_rotate_if_needed`.

Python strings are sequences of code points, so they are embedded as
`List Char` (named `PyStr`).  Python dicts are embedded as association
lists with unique keys, with lookup / insert-or-replace / pop mirroring
`d.get`, `d[k] = v` and `d.pop(k)`.  The remote tmux side (pane capture
and key sending, performed over SSH) is abstracted as an environment of
pane contents, and every remote interaction performed by the bridge is
recorded in an explicit action trace.  The file system touched by the
structured log writer is embedded as the byte sizes of the active log
file and of its numbered backups.
-/

namespace TmuxMcp

/-- A Python string: a finite sequence of code points. -/
abbrev PyStr := List Char

/-- Embed a Lean string literal as a `PyStr`. -/
def py (s : String) : PyStr := s.data

/-- Python's `str.strip()` with no argument: remove leading and trailing
whitespace (modelled on the ASCII whitespace characters). -/
def pyStrip (s : PyStr) : PyStr :=
  ((s.dropWhile Char.isWhitespace).reverse.dropWhile Char.isWhitespace).reverse

/-- Python's `"\n".join(lines)`. -/
def joinLines (lines : List PyStr) : PyStr :=
  List.intercalate (py "\n") lines

/-! ## Python dicts as association lists

Keys in a Python dict are unique; the bridge only ever inserts via
`d[k] = v` and removes via `d.pop(k)`, so an association list with a
no-duplicate-keys invariant is a faithful model. -/

variable {κ β : Type} [DecidableEq κ]

/-- `d.get(k)` / `k in d`: first (hence only) binding of `k`. -/
def dictGet? : List (κ × β) → κ → Option β
  | [], _ => none
  | (k', v) :: rest, k => if k = k' then some v else dictGet? rest k

/-- `d[k] = v`: replace the binding of `k` in place, or append it. -/
def dictInsert : List (κ × β) → κ → β → List (κ × β)
  | [], k, v => [(k, v)]
  | (k', v') :: rest, k, v =>
    if k = k' then (k, v) :: rest else (k', v') :: dictInsert rest k v

/-- `d.pop(k)`: the popped value and the remaining dict, or `none`
(a `KeyError` in Python) when `k` is absent. -/
def dictPop : List (κ × β) → κ → Option (β × List (κ × β))
  | [], _ => none
  | (k', v') :: rest, k =>
    if k = k' then some (v', rest)
    else
      match dictPop rest k with
      | none => none
      | some (v, rest') => some (v, (k', v') :: rest')

/-! ## Policy engine (`safety.py`)

A compiled regular expression is abstracted as a matcher
`PyStr → Bool`: the result of `pattern.search(command)` being truthy.
`SafetyEvaluator.evaluate` only consumes patterns through `.search`,
so this interface captures exactly what the source uses. -/

/-- A compiled pattern, abstracted by its `search` behaviour. -/
abbrev Matcher := PyStr → Bool

/-- `SafetyConfig` from `safety.py` (pattern lists already compiled). -/
structure SafetyConfig where
  safe_mode : Bool
  destructive_patterns : List Matcher
  warn_patterns : List Matcher

/-- `SafetyEvaluation` from `safety.py`. -/
structure SafetyEvaluation where
  requires_approval : Bool
  blocked : Bool
  reason : Option PyStr
deriving DecidableEq, Repr

/-- The `for pattern in ...: if pattern.search(command): return ...` loop:
true iff some pattern in the list matches, first match winning. -/
def anyMatch : List Matcher → PyStr → Bool
  | [], _ => false
  | p :: rest, command => if p command then true else anyMatch rest command

/-- `SafetyEvaluator.evaluate` from `safety.py`. -/
def evaluate (cfg : SafetyConfig) (command : PyStr) : SafetyEvaluation :=
  let command := pyStrip command
  if anyMatch cfg.destructive_patterns command then
    { requires_approval := if cfg.safe_mode then true else false
      blocked := false
      reason := some (py "destructive-pattern") }
  else if anyMatch cfg.warn_patterns command then
    { requires_approval := cfg.safe_mode
      blocked := false
      reason := some (py "warn-pattern") }
  else
    { requires_approval := false, blocked := false, reason := none }

/-- Case-insensitive literal substring search: the behaviour of
`re.compile(pat, re.IGNORECASE).search(s)` for a pattern without regex
metacharacters.  Used to instantiate `Matcher` on concrete inputs. -/
def ciSearch (pat : PyStr) (s : PyStr) : Bool :=
  decide ((pat.map Char.toLower) <:+: (s.map Char.toLower))

/-! ## Execution bridge (`command_bridge.py`) -/

/-- `CommandRequest` from `command_bridge.py`.  `metadata` is an opaque
string-to-string mapping (`None` modelled as the missing value of
`Option`). -/
structure CommandRequest where
  command_id : PyStr
  task_id : PyStr
  session : PyStr
  window : PyStr
  pane : PyStr
  command : PyStr
  metadata : Option (List (PyStr × PyStr)) := none
deriving DecidableEq

/-- `CommandResult` from `command_bridge.py`. -/
structure CommandResult where
  status : PyStr
  stdout : PyStr
  stderr : PyStr
  safety : SafetyEvaluation
  approved_by_user : Bool := false
deriving DecidableEq

/-- `LogRecord` from `logging_utils.py`, restricted to the fields the
bridge populates (the timestamp is wall-clock time taken at record
creation and is not modelled). -/
structure LogRecord where
  task_id : PyStr
  session : PyStr
  window : PyStr
  pane : PyStr
  command : PyStr
  status : PyStr
  stdout : PyStr
  stderr : PyStr
  safety_state : PyStr
  approved_by_user : Bool
  metadata : List (PyStr × PyStr)
deriving DecidableEq

/-- Address of a pane: the `(session, window, pane)` key used by the
snapshot cache. -/
abbrev PaneKey := PyStr × PyStr × PyStr

/-- One remote tmux interaction issued by the bridge through the
session manager. -/
inductive RemoteAction where
  /-- `session_manager.get_pane(session, window, pane)` -/
  | getPane (key : PaneKey)
  /-- `pane.capture_pane()` -/
  | capturePane (key : PaneKey)
  /-- `pane.send_keys(command, enter=True)` -/
  | sendKeys (key : PaneKey) (command : PyStr)
deriving DecidableEq

/-- The remote tmux side, abstracted: what `capture_pane` returns on the
pane right now, and what it returns after `send_keys` of a given command
(captures return lists of lines). -/
structure RemoteEnv where
  content : PaneKey → List PyStr
  afterSend : PaneKey → PyStr → List PyStr

/-- The mutable state of one `CommandBridge` instance: the pending
table, the per-pane snapshot cache, the id counter
(`itertools.count(1)`), and the sequence of audit records appended so
far through the log writer. -/
structure BridgeState where
  pending : List (PyStr × CommandRequest)
  paneSnapshots : List (PaneKey × PyStr)
  idCounter : Nat
  log : List LogRecord

/-- A freshly constructed `CommandBridge`: empty pending table, empty
snapshot cache, id counter starting at 1. -/
def initBridge : BridgeState :=
  { pending := [], paneSnapshots := [], idCounter := 1, log := [] }

/-- `CommandBridge.next_command_id`. -/
def next_command_id (st : BridgeState) : PyStr × BridgeState :=
  (py "cmd-" ++ Nat.toDigits 10 st.idCounter,
   { st with idCounter := st.idCounter + 1 })

/-- `CommandBridge._calculate_delta`. -/
def calculate_delta (before after : PyStr) : PyStr :=
  if before = [] then after
  else if before.isPrefixOf after then after.drop before.length
  else after

/-- `CommandBridge._log`: build the audit record exactly as the source
does and append it. -/
def logRecord (request : CommandRequest) (status : PyStr)
    (evaluation : SafetyEvaluation) (stdout : PyStr) (approved : Bool) :
    LogRecord :=
  { task_id := request.task_id
    session := request.session
    window := request.window
    pane := request.pane
    command := request.command
    status := status
    stdout := stdout
    stderr := py ""
    safety_state :=
      if status = py "blocked" then py "blocked"
      else (evaluation.reason.getD (py "allowed"))
    approved_by_user := approved
    metadata := request.metadata.getD [] }

/-- `CommandBridge._execute`: the shared execute path.  Returns the
result, the new bridge state, and the trace of remote interactions in
the order they are issued. -/
def execRun (env : RemoteEnv) (st : BridgeState) (request : CommandRequest)
    (evaluation : SafetyEvaluation) (approved : Bool) :
    CommandResult × BridgeState × List RemoteAction :=
  let key : PaneKey := (request.session, request.window, request.pane)
  let cached := (dictGet? st.paneSnapshots key).getD (py "")
  -- `if not before_snapshot:` — the empty string is falsy
  let fresh : Bool := cached = []
  let before := if fresh then joinLines (env.content key) else cached
  let afterLines := env.afterSend key request.command
  let after := joinLines afterLines
  let delta := calculate_delta before after
  let result : CommandResult :=
    { status := py "executed", stdout := delta, stderr := py ""
      safety := evaluation, approved_by_user := approved }
  let st' :=
    { st with
      paneSnapshots := dictInsert st.paneSnapshots key after
      log := st.log ++ [logRecord request (py "executed") evaluation delta approved] }
  (result, st',
   RemoteAction.getPane key ::
     ((if fresh then [RemoteAction.capturePane key] else []) ++
      [RemoteAction.sendKeys key request.command, RemoteAction.capturePane key]))

/-- `CommandBridge.submit_command`. -/
def submit_command (cfg : SafetyConfig) (env : RemoteEnv) (st : BridgeState)
    (request : CommandRequest) (approved : Bool) :
    CommandResult × BridgeState × List RemoteAction :=
  let evaluation := evaluate cfg request.command
  if evaluation.blocked then
    ({ status := py "blocked", stdout := py "", stderr := py ""
       safety := evaluation, approved_by_user := approved },
     { st with
       log := st.log ++ [logRecord request (py "blocked") evaluation (py "") approved] },
     [])
  else if evaluation.requires_approval && !approved then
    ({ status := py "pending_approval", stdout := py "", stderr := py ""
       safety := evaluation, approved_by_user := false },
     { st with
       pending := dictInsert st.pending request.command_id request
       log := st.log ++
         [logRecord request (py "pending_approval") evaluation (py "") false] },
     [])
  else
    execRun env st request evaluation approved

/-- The typed errors surfaced by the bridge to the outer layer.  A
`KeyError` from `self._pending.pop(command_id)` is mapped by the outer
layer (`agent.py`, `_tool_approve_command` / `_tool_reject_command`) to
the protocol error "Unknown pending command". -/
inductive BridgeError where
  | unknownPendingCommand
deriving DecidableEq

/-- Outcome of a bridge call that can raise: either a value, or a typed
error together with the bridge state after the raising call (a failed
`dict.pop` does not mutate the dict). -/
inductive BridgeOutcome (α : Type) where
  | ok (value : α)
  | error (e : BridgeError) (st : BridgeState)

/-- `CommandBridge.execute_pending`. -/
def execute_pending (cfg : SafetyConfig) (env : RemoteEnv) (st : BridgeState)
    (command_id : PyStr) (approved_by_user : Bool) :
    BridgeOutcome (CommandResult × BridgeState × List RemoteAction) :=
  match dictPop st.pending command_id with
  | none => .error .unknownPendingCommand st
  | some (request, pending') =>
    let evaluation := evaluate cfg request.command
    .ok (execRun env { st with pending := pending' } request evaluation
          approved_by_user)

/-- `CommandBridge.reject_pending`. -/
def reject_pending (cfg : SafetyConfig) (st : BridgeState)
    (command_id : PyStr) : BridgeOutcome (BridgeState × List RemoteAction) :=
  match dictPop st.pending command_id with
  | none => .error .unknownPendingCommand st
  | some (request, pending') =>
    let evaluation := evaluate cfg request.command
    .ok ({ st with
           pending := pending'
           log := st.log ++
             [logRecord request (py "denied") evaluation (py "") false] },
         [])

/-- `CommandBridge.read_context`. -/
def read_context (env : RemoteEnv) (st : BridgeState) (key : PaneKey) :
    PyStr × BridgeState × List RemoteAction :=
  let concatenated := joinLines (env.content key)
  (concatenated,
   { st with paneSnapshots := dictInsert st.paneSnapshots key concatenated },
   [RemoteAction.getPane key, RemoteAction.capturePane key])

/-! ## Structured log writer (`logging_utils.py`)

The file system seen by `StructuredLogWriter` is embedded as byte
sizes: the size of the active log file (`none` when the file does not
exist) and the size of each numbered backup `log.1`, `log.2`, ….
Appending a serialized record of `n` bytes grows the target by `n + 1`
bytes (the record plus the trailing newline), which is exactly the
`incoming_bytes` the source passes to `_rotate_if_needed`. -/

/-- The files managed by one `StructuredLogWriter`. -/
structure LogFS where
  /-- Byte size of the active log file, `none` when absent. -/
  active : Option Nat
  /-- Byte size of backup number `i` (`log.i`), `none` when absent. -/
  backup : Nat → Option Nat

/-- `oldest.unlink()` guarded by `oldest.exists()`: drop the backup at
the maximum index. -/
def unlinkOldest (nbackups : Nat) (b : Nat → Option Nat) : Nat → Option Nat :=
  match b nbackups with
  | some _ => fun j => if j = nbackups then none else b j
  | none => b

/-- One iteration of the shift loop: `src.rename(dst)` guarded by
`src.exists()`, for `src = log.index`, `dst = log.(index+1)`. -/
def shiftStep (b : Nat → Option Nat) (index : Nat) : Nat → Option Nat :=
  match b index with
  | some v => fun j =>
      if j = index + 1 then some v
      else if j = index then none
      else b j
  | none => b

/-- `for index in range(backups - 1, 0, -1): ...` — process the indices
`m, m - 1, …, 1` in that (descending) order. -/
def shiftDown (b : Nat → Option Nat) : Nat → (Nat → Option Nat)
  | 0 => b
  | m + 1 => shiftDown (shiftStep b (m + 1)) m

/-- The rotation body of `_rotate_if_needed` (reached when the
projected size exceeds the threshold): unlink the oldest backup, shift
the rest up, then rename the active file (of size `activeSize`) to
backup slot 1. -/
def rotateBackups (nbackups : Nat) (activeSize : Nat)
    (b : Nat → Option Nat) : Nat → Option Nat :=
  let b1 := shiftDown (unlinkOldest nbackups b) (nbackups - 1)
  fun j => if j = 1 then some activeSize else b1 j

/-- `StructuredLogWriter._rotate_if_needed`. -/
def rotate_if_needed (maxBytes nbackups : Nat) (fs : LogFS)
    (incoming : Nat) : LogFS :=
  match fs.active with
  | none => fs
  | some size =>
    if size + incoming ≤ maxBytes then fs
    else { active := none, backup := rotateBackups nbackups size fs.backup }

/-- `StructuredLogWriter.append` for a record whose JSON serialization
is `serializedLen` bytes long: rotate if needed, then append the record
and a newline to the active file (creating it if absent). -/
def appendRecord (maxBytes nbackups : Nat) (fs : LogFS)
    (serializedLen : Nat) : LogFS :=
  let incoming := serializedLen + 1
  let fs1 := rotate_if_needed maxBytes nbackups fs incoming
  { fs1 with active := some (fs1.active.getD 0 + incoming) }

/-! ## Decimal digits decode (for command-id uniqueness)

`next_command_id` formats the counter with `f"cmd-{value}"`, i.e. the
decimal digits `Nat.toDigits 10 value`.  To show that distinct counter
values give distinct tokens we exhibit a left inverse of
`Nat.toDigits 10`. -/

/-- Numeric value of a decimal digit character. -/
def digitVal (c : Char) : Nat := c.toNat - '0'.toNat

/-- Decode a big-endian decimal digit string. -/
def decodeDecimal (l : List Char) : Nat :=
  l.foldl (fun a c => 10 * a + digitVal c) 0

/-! ## Iterated id generation and concrete fixtures -/

/-- The bridge state after `k` calls to `next_command_id`. -/
def stateAfterIds (st : BridgeState) : Nat → BridgeState
  | 0 => st
  | k + 1 => (next_command_id (stateAfterIds st k)).2

/-- The id returned by the `(k+1)`-st call to `next_command_id` on a
bridge that started in state `st`. -/
def nthGeneratedId (st : BridgeState) (k : Nat) : PyStr :=
  (next_command_id (stateAfterIds st k)).1

/-- The snapshot-cache key `(request.session, request.window,
request.pane)` used by `_execute` for a request. -/
def paneKeyOf (request : CommandRequest) : PaneKey :=
  (request.session, request.window, request.pane)

/-- The text of a fresh pre-send capture of the request's pane:
`"\n".join(pane_obj.capture_pane())` before `send_keys`. -/
def preCapture (env : RemoteEnv) (request : CommandRequest) : PyStr :=
  joinLines (env.content (paneKeyOf request))

/-- The text of the post-send capture of the request's pane. -/
def postCapture (env : RemoteEnv) (request : CommandRequest) : PyStr :=
  joinLines (env.afterSend (paneKeyOf request) request.command)

/-- A concrete pane address used by concrete instantiations. -/
def keyA : PaneKey := (py "s", py "w", py "0")

/-- A concrete request whose command matches a destructive pattern. -/
def reqA : CommandRequest :=
  { command_id := py "cmd-1", task_id := py "t1", session := py "s"
    window := py "w", pane := py "0", command := py "rm -rf /" }

/-- A concrete benign request. -/
def reqB : CommandRequest :=
  { command_id := py "cmd-2", task_id := py "t1", session := py "s"
    window := py "w", pane := py "0", command := py "ls" }

/-- A concrete remote environment. -/
def envA : RemoteEnv :=
  { content := fun _ => [], afterSend := fun _ _ => [py "done"] }

/-- A concrete remote environment whose pre-send capture is `"X"` and
whose post-send capture is `"Y"` (the pre-send content scrolled out). -/
def envScroll : RemoteEnv :=
  { content := fun _ => [py "X"], afterSend := fun _ _ => [py "Y"] }

/-- A concrete safety configuration in safe mode, with one destructive
and one warn matcher. -/
def cfgA : SafetyConfig :=
  { safe_mode := true
    destructive_patterns := [ciSearch (py "rm -rf /")]
    warn_patterns := [ciSearch (py "rm -rf")] }

/-- A bridge state with one pending command under id `"cmd-1"`. -/
def stPending : BridgeState :=
  { initBridge with pending := [(py "cmd-1", reqA)] }

/-- The state of `stPending` after its pending command is rejected. -/
def stRejected : BridgeState :=
  { stPending with
    pending := []
    log := stPending.log ++
      [logRecord reqA (py "denied") (evaluate cfgA reqA.command) (py "") false] }

/-- A bridge state whose snapshot cache holds the empty string for
`keyA` — a cached capture that came back empty. -/
def stEmptySnapshot : BridgeState :=
  { initBridge with paneSnapshots := [(keyA, py "")] }

/-- A concrete log-file layout: active file of 8 bytes, backups 1 and 2
present, backup 3 absent. -/
def fsA : LogFS :=
  { active := some 8
    backup := fun j => if j = 1 then some 100 else if j = 2 then some 200 else none }

/-! ## Helper lemmas: dictionaries -/

theorem dictGet?_insert_self (d : List (κ × β)) (k : κ) (v : β) :
    dictGet? (dictInsert d k v) k = some v := by
  induction d with
  | nil => simp [dictInsert, dictGet?]
  | cons hd tl ih =>
    obtain ⟨k', v'⟩ := hd
    by_cases h : k = k' <;> simp [dictInsert, dictGet?, h, ih]

theorem dictInsert_insert (d : List (κ × β)) (k : κ) (v w : β) :
    dictInsert (dictInsert d k v) k w = dictInsert d k w := by
  induction d with
  | nil => simp [dictInsert]
  | cons hd tl ih =>
    obtain ⟨k', v'⟩ := hd
    by_cases h : k = k' <;> simp [dictInsert, h, ih]

theorem dictPop_eq_none_of_get_none (d : List (κ × β)) (k : κ)
    (h : dictGet? d k = none) : dictPop d k = none := by
  induction d with
  | nil => rfl
  | cons hd tl ih =>
    obtain ⟨k', v'⟩ := hd
    by_cases hk : k = k' <;> simp_all [dictGet?, dictPop]

theorem dictPop_get (d : List (κ × β)) (k : κ) (v : β) (rest : List (κ × β))
    (h : dictPop d k = some (v, rest)) : dictGet? d k = some v := by
  induction d generalizing rest with
  | nil => simp [dictPop] at h
  | cons hd tl ih =>
    obtain ⟨k', v'⟩ := hd
    by_cases hk : k = k'
    · simp [dictPop, hk] at h
      simp [dictGet?, hk, h.1]
    · simp only [dictPop, if_neg hk] at h
      cases htl : dictPop tl k with
      | none => simp [htl] at h
      | some p =>
        obtain ⟨v₀, rest₀⟩ := p
        simp [htl] at h
        simp [dictGet?, hk, ih rest₀ (by rw [htl, h.1])]

theorem dictPop_rest_get_none (d : List (κ × β)) (k : κ) (v : β)
    (rest : List (κ × β)) (hnd : (d.map Prod.fst).Nodup)
    (h : dictPop d k = some (v, rest)) : dictGet? rest k = none := by
  induction d generalizing rest with
  | nil => simp [dictPop] at h
  | cons hd tl ih =>
    obtain ⟨k', v'⟩ := hd
    simp only [List.map_cons, List.nodup_cons] at hnd
    by_cases hk : k = k'
    · simp [dictPop, hk] at h
      subst hk
      rw [← h.2]
      cases hg : dictGet? tl k with
      | none => rfl
      | some w =>
        exfalso
        apply hnd.1
        clear h ih hnd
        induction tl with
        | nil => simp [dictGet?] at hg
        | cons hd₂ tl₂ ih₂ =>
          obtain ⟨k₂, v₂⟩ := hd₂
          by_cases hk₂ : k = k₂
          · subst hk₂; simp
          · simp [dictGet?, hk₂] at hg
            simp [ih₂ hg]
    · simp only [dictPop, if_neg hk] at h
      cases htl : dictPop tl k with
      | none => simp [htl] at h
      | some p =>
        obtain ⟨v₀, rest₀⟩ := p
        simp [htl] at h
        rw [← h.2]
        simp [dictGet?, hk]
        exact ih rest₀ hnd.2 (by rw [htl, h.1])

/-! ## Helper lemmas: policy engine -/

theorem anyMatch_iff (ps : List Matcher) (c : PyStr) :
    anyMatch ps c = true ↔ ∃ p ∈ ps, p c = true := by
  induction ps with
  | nil => simp [anyMatch]
  | cons hd tl ih =>
    by_cases h : hd c <;> simp [anyMatch, h, ih]

theorem evaluate_destructive (cfg : SafetyConfig) (command : PyStr)
    (h : ∃ p ∈ cfg.destructive_patterns, p (pyStrip command) = true) :
    evaluate cfg command =
      ⟨cfg.safe_mode, false, some (py "destructive-pattern")⟩ := by
  have hd : anyMatch cfg.destructive_patterns (pyStrip command) = true :=
    (anyMatch_iff _ _).mpr h
  simp only [evaluate, hd, if_true]
  cases cfg.safe_mode <;> rfl

theorem evaluate_warn (cfg : SafetyConfig) (command : PyStr)
    (hd : ∀ p ∈ cfg.destructive_patterns, p (pyStrip command) = false)
    (hw : ∃ p ∈ cfg.warn_patterns, p (pyStrip command) = true) :
    evaluate cfg command = ⟨cfg.safe_mode, false, some (py "warn-pattern")⟩ := by
  have hd' : anyMatch cfg.destructive_patterns (pyStrip command) = false := by
    rw [← Bool.not_eq_true, anyMatch_iff]
    push_neg
    intro p hp
    simp [hd p hp]
  have hw' : anyMatch cfg.warn_patterns (pyStrip command) = true :=
    (anyMatch_iff _ _).mpr hw
  simp only [evaluate, hd', hw', if_true, Bool.false_eq_true, if_false]

theorem evaluate_no_match (cfg : SafetyConfig) (command : PyStr)
    (hd : ∀ p ∈ cfg.destructive_patterns, p (pyStrip command) = false)
    (hw : ∀ p ∈ cfg.warn_patterns, p (pyStrip command) = false) :
    evaluate cfg command = ⟨false, false, none⟩ := by
  have hd' : anyMatch cfg.destructive_patterns (pyStrip command) = false := by
    rw [← Bool.not_eq_true, anyMatch_iff]
    push_neg
    intro p hp
    simp [hd p hp]
  have hw' : anyMatch cfg.warn_patterns (pyStrip command) = false := by
    rw [← Bool.not_eq_true, anyMatch_iff]
    push_neg
    intro p hp
    simp [hw p hp]
  simp only [evaluate, hd', hw', Bool.false_eq_true, if_false]

/-! ## Helper lemmas: delta computation -/

theorem calculate_delta_nil (after : PyStr) : calculate_delta [] after = after :=
  rfl

theorem calculate_delta_prefix_case (before after : PyStr)
    (h : before <+: after) :
    calculate_delta before after = after.drop before.length := by
  by_cases hnil : before = []
  · subst hnil
    simp [calculate_delta]
  · unfold calculate_delta
    rw [if_neg hnil, if_pos (List.isPrefixOf_iff_prefix.mpr h)]

theorem calculate_delta_scroll_case (before after : PyStr)
    (h : ¬ before <+: after) :
    calculate_delta before after = after := by
  have hnil : before ≠ [] := by
    intro hb
    exact h (hb ▸ List.nil_prefix)
  unfold calculate_delta
  rw [if_neg hnil, if_neg (by simp [List.isPrefixOf_iff_prefix, h])]

theorem calculate_delta_append (before s : PyStr) :
    calculate_delta before (before ++ s) = s := by
  by_cases hnil : before = []
  · subst hnil; rfl
  · rw [calculate_delta_prefix_case before (before ++ s)
      (List.prefix_append before s)]
    exact List.drop_left before s

theorem calculate_delta_eq_full_iff (before after : PyStr) :
    calculate_delta before after = after ↔
      (before = [] ∨ ¬ before <+: after) := by
  by_cases hnil : before = []
  · simp [hnil, calculate_delta]
  · by_cases hpre : before <+: after
    · rw [calculate_delta_prefix_case before after hpre]
      simp only [hnil, false_or]
      constructor
      · intro hdrop
        exfalso
        have hlen := congrArg List.length hdrop
        rw [List.length_drop] at hlen
        have hle : before.length ≤ after.length := hpre.length_le
        have hbpos : 0 < before.length := List.length_pos.mpr hnil
        have hapos : 0 < after.length := by omega
        omega
      · intro h
        exact absurd hpre h
    · rw [calculate_delta_scroll_case before after hpre]
      simp [hpre]

/-! ## Helper lemmas: decimal digits and id generation -/

theorem digitVal_digitChar : ∀ d, d < 10 → digitVal (Nat.digitChar d) = d := by
  decide

theorem foldl_toDigitsCore (f : Nat) :
    ∀ (n : Nat) (acc : List Char), n < f →
      List.foldl (fun a c => 10 * a + digitVal c) 0
        (Nat.toDigitsCore 10 f n acc) =
      List.foldl (fun a c => 10 * a + digitVal c) n acc := by
  induction f with
  | zero => intro n acc h; omega
  | succ f ih =>
    intro n acc h
    rw [Nat.toDigitsCore]
    by_cases hdiv : n / 10 = 0
    · have hlt : n % 10 < 10 := Nat.mod_lt _ (by omega)
      have hn : n % 10 = n := by omega
      simp only [hdiv, if_true, List.foldl_cons, Nat.mul_zero, Nat.zero_add]
      rw [digitVal_digitChar _ hlt, hn]
    · have hpos : 0 < n := by
        rcases Nat.eq_zero_or_pos n with h0 | h0
        · exfalso; apply hdiv; omega
        · exact h0
      have hlt₂ : n / 10 < f := by
        have := Nat.div_lt_self hpos (by omega : 1 < 10)
        omega
      simp only [hdiv, if_false]
      rw [ih (n / 10) (Nat.digitChar (n % 10) :: acc) hlt₂]
      have hmod : n % 10 < 10 := Nat.mod_lt _ (by omega)
      simp only [List.foldl_cons, digitVal_digitChar _ hmod,
        Nat.div_add_mod]

theorem decodeDecimal_toDigits (n : Nat) :
    decodeDecimal (Nat.toDigits 10 n) = n := by
  unfold decodeDecimal Nat.toDigits
  rw [foldl_toDigitsCore (n + 1) n [] (Nat.lt_succ_self n)]
  rfl

theorem toDigits_injective (a b : Nat)
    (h : Nat.toDigits 10 a = Nat.toDigits 10 b) : a = b := by
  have := congrArg decodeDecimal h
  rwa [decodeDecimal_toDigits, decodeDecimal_toDigits] at this

theorem stateAfterIds_idCounter (st : BridgeState) (k : Nat) :
    (stateAfterIds st k).idCounter = st.idCounter + k := by
  induction k with
  | zero => rfl
  | succ k ih => simp [stateAfterIds, next_command_id, ih]; omega

theorem nthGeneratedId_eq (st : BridgeState) (k : Nat) :
    nthGeneratedId st k = py "cmd-" ++ Nat.toDigits 10 (st.idCounter + k) := by
  unfold nthGeneratedId next_command_id
  rw [stateAfterIds_idCounter]

/-! ## Helper lemmas: log rotation -/

theorem shiftDown_spec (m : Nat) :
    ∀ (b : Nat → Option Nat), b (m + 1) = none →
      (∀ j, 2 ≤ j → j ≤ m + 1 → shiftDown b m j = b (j - 1)) ∧
      (∀ j, j = 0 ∨ m + 1 < j → shiftDown b m j = b j) ∧
      (1 ≤ m → shiftDown b m 1 = none) := by
  induction m with
  | zero =>
    intro b hb
    refine ⟨fun j h2 h1 => absurd (Nat.le_trans h2 h1) (by omega), ?_, ?_⟩
    · intro j _; rfl
    · omega
  | succ m ih =>
    intro b hb
    set b' := shiftStep b (m + 1) with hb'
    have hfacts : b' (m + 1) = none ∧ b' (m + 1 + 1) = b (m + 1) ∧
        (∀ j, j ≠ m + 1 → j ≠ m + 1 + 1 → b' j = b j) := by
      rw [hb']
      unfold shiftStep
      cases hcase : b (m + 1) with
      | none =>
        exact ⟨hcase, hb, fun j _ _ => rfl⟩
      | some v =>
        have hne : ¬ (m + 1 = m + 1 + 1) := by omega
        refine ⟨?_, ?_, fun j h1 h2 => ?_⟩
        · simp [hne]
        · simp
        · simp [h1, h2]
    have hrec : shiftDown b (m + 1) = shiftDown b' m := rfl
    obtain ⟨ih1, ih2, ih3⟩ := ih b' hfacts.1
    refine ⟨?_, ?_, ?_⟩
    · intro j h2 h1
      rw [hrec]
      rcases Nat.lt_or_ge j (m + 1 + 1) with hj | hj
      · rw [ih1 j h2 (by omega)]
        exact hfacts.2.2 (j - 1) (by omega) (by omega)
      · have hj2 : j = m + 1 + 1 := by omega
        subst hj2
        rw [ih2 (m + 1 + 1) (Or.inr (by omega))]
        exact hfacts.2.1
    · intro j hj
      rw [hrec, ih2 j (by omega)]
      exact hfacts.2.2 j (by omega) (by omega)
    · intro _
      rw [hrec]
      rcases Nat.eq_zero_or_pos m with hm | hm
      · subst hm
        exact hfacts.1
      · exact ih3 hm

theorem unlinkOldest_self (nb : Nat) (b : Nat → Option Nat) :
    unlinkOldest nb b nb = none := by
  unfold unlinkOldest
  cases hcase : b nb with
  | none => exact hcase
  | some v => simp

theorem unlinkOldest_ne (nb j : Nat) (b : Nat → Option Nat) (h : j ≠ nb) :
    unlinkOldest nb b j = b j := by
  unfold unlinkOldest
  cases b nb with
  | none => rfl
  | some v => simp [h]

theorem rotateBackups_spec (nb size : Nat) (b : Nat → Option Nat)
    (hnb : 1 ≤ nb) :
    rotateBackups nb size b 1 = some size ∧
    (∀ i, 2 ≤ i → i ≤ nb → rotateBackups nb size b i = b (i - 1)) ∧
    (∀ i, nb < i → rotateBackups nb size b i = b i) := by
  have hm : nb - 1 + 1 = nb := by omega
  have hpre : unlinkOldest nb b (nb - 1 + 1) = none := by
    rw [hm]; exact unlinkOldest_self nb b
  obtain ⟨h1, h2, _⟩ := shiftDown_spec (nb - 1) (unlinkOldest nb b) hpre
  refine ⟨by simp [rotateBackups], ?_, ?_⟩
  · intro i hi2 hinb
    unfold rotateBackups
    simp only [if_neg (by omega : ¬ i = 1)]
    rw [h1 i hi2 (by omega)]
    exact unlinkOldest_ne nb (i - 1) b (by omega)
  · intro i hi
    unfold rotateBackups
    simp only [if_neg (by omega : ¬ i = 1)]
    rw [h2 i (Or.inr (by omega))]
    exact unlinkOldest_ne nb i b (by omega)

/-! ## Claims -/

/-- Claim C1: `evaluate` trims the command, then tests the destructive
pattern list; a destructive match returns `reason = destructive-pattern`
with `requires_approval = safe_mode`; only if no destructive pattern
matches is the warn list tested, a match returning
`reason = warn-pattern` with `requires_approval = safe_mode`; with no
match at all it returns `requires_approval = false` and no reason.  A
command matching both lists gets `destructive-pattern` (the first
conjunct applies whenever a destructive pattern matches, regardless of
the warn list). -/
theorem claim_C1_evaluate_order (cfg : SafetyConfig) (command : PyStr) :
    ((∃ p ∈ cfg.destructive_patterns, p (pyStrip command) = true) →
      evaluate cfg command =
        ⟨cfg.safe_mode, false, some (py "destructive-pattern")⟩) ∧
    ((∀ p ∈ cfg.destructive_patterns, p (pyStrip command) = false) →
      (∃ p ∈ cfg.warn_patterns, p (pyStrip command) = true) →
      evaluate cfg command = ⟨cfg.safe_mode, false, some (py "warn-pattern")⟩) ∧
    ((∀ p ∈ cfg.destructive_patterns, p (pyStrip command) = false) →
      (∀ p ∈ cfg.warn_patterns, p (pyStrip command) = false) →
      evaluate cfg command = ⟨false, false, none⟩) :=
  ⟨evaluate_destructive cfg command, evaluate_warn cfg command,
   evaluate_no_match cfg command⟩

/-- Witness for C1: a concrete command that matches both the destructive
matcher and the warn matcher of `cfgA` (case-insensitively, after
trimming) is classified `destructive-pattern`. -/
theorem claim_C1_evaluate_order_witness :
    evaluate cfgA (py "  RM -RF /home  ") =
      ⟨true, false, some (py "destructive-pattern")⟩ :=
  (claim_C1_evaluate_order cfgA (py "  RM -RF /home  ")).1
    ⟨ciSearch (py "rm -rf /"), by simp [cfgA], by decide⟩

/-- Claim C6: for every command and every policy configuration,
`evaluate` returns `blocked = false` — destructive matches are gated
behind approval, never hard-blocked. -/
theorem claim_C6_never_blocked (cfg : SafetyConfig) (command : PyStr) :
    (evaluate cfg command).blocked = false := by
  simp only [evaluate]
  split
  · rfl
  · split <;> rfl

/-- Claim C4: delta computation — with no prior snapshot (empty prior
text) the delta is the whole post text; when the post text starts with
the prior text the delta is exactly the remainder (so prior `"A\nB\n"`
and post `"A\nB\nC\n"` give `"C\n"`); otherwise the delta is the whole
post text. -/
theorem claim_C4_delta (before after : PyStr) :
    calculate_delta [] after = after ∧
    (before <+: after →
      calculate_delta before after = after.drop before.length) ∧
    (¬ before <+: after → calculate_delta before after = after) ∧
    calculate_delta (py "A\nB\n") (py "A\nB\nC\n") = py "C\n" :=
  ⟨calculate_delta_nil after, calculate_delta_prefix_case before after,
   calculate_delta_scroll_case before after, by decide⟩

/-- Witness for C4: the prefix case and the scrolled (non-prefix) case
at concrete captures. -/
theorem claim_C4_delta_witness :
    calculate_delta (py "A\n") (py "A\nB\n") =
      (py "A\nB\n").drop (py "A\n").length ∧
    calculate_delta (py "XY") (py "AB") = py "AB" :=
  ⟨(claim_C4_delta (py "A\n") (py "A\nB\n")).2.1 (by decide),
   (claim_C4_delta (py "XY") (py "AB")).2.2.1 (by decide)⟩

/-- Claim C10: round trip of the delta — for non-empty `before` that is
a literal prefix of `after`, `before ++ delta = after`; equivalently the
delta of `(before, before ++ s)` is `s`. -/
theorem claim_C10_round_trip (before s after : PyStr) (hne : before ≠ []) :
    (before <+: after →
      before ++ calculate_delta before after = after) ∧
    calculate_delta before (before ++ s) = s := by
  constructor
  · intro hpre
    obtain ⟨t, rfl⟩ := hpre
    rw [calculate_delta_append]
  · exact calculate_delta_append before s

/-- Witness for C10 at a concrete prior capture and suffix. -/
theorem claim_C10_round_trip_witness :
    py "A\n" ++ calculate_delta (py "A\n") (py "A\nC\n") = py "A\nC\n" ∧
    calculate_delta (py "A\n") (py "A\n" ++ py "C\n") = py "C\n" :=
  ⟨(claim_C10_round_trip (py "A\n") (py "C\n") (py "A\nC\n")
      (by decide)).1 (by decide),
   (claim_C10_round_trip (py "A\n") (py "C\n") (py "A\nC\n") (by decide)).2⟩

/-- Claim C3: `execute_pending` on a `command_id` absent from the
pending table fails with the typed `UnknownPendingCommand` error (the
`KeyError` of `dict.pop`, mapped to the protocol error by the outer
layer), and the bridge state — in particular the pending table — is
left unmodified. -/
theorem claim_C3_unknown_pending (cfg : SafetyConfig) (env : RemoteEnv)
    (st : BridgeState) (command_id : PyStr) (approved_by_user : Bool)
    (h : dictGet? st.pending command_id = none) :
    execute_pending cfg env st command_id approved_by_user =
      .error .unknownPendingCommand st := by
  unfold execute_pending
  rw [dictPop_eq_none_of_get_none st.pending command_id h]

/-- Witness for C3: a fresh bridge has no pending command `"cmd-404"`,
so approving it fails and leaves the state unchanged. -/
theorem claim_C3_unknown_pending_witness :
    execute_pending cfgA envA initBridge (py "cmd-404") true =
      .error .unknownPendingCommand initBridge :=
  claim_C3_unknown_pending cfgA envA initBridge (py "cmd-404") true rfl

/-- Claim C7: after a successful `reject_pending(id)` the id is gone
from the pending table, a `denied` record is logged, no remote action is
taken (empty action trace), the snapshot cache is untouched (the
resulting state changes only `pending` and `log`), and a subsequent
`execute_pending(id)` fails. -/
theorem claim_C7_reject (cfg : SafetyConfig) (env : RemoteEnv)
    (st : BridgeState) (command_id : PyStr) (request : CommandRequest)
    (rest : List (PyStr × CommandRequest))
    (hnd : (st.pending.map Prod.fst).Nodup)
    (hpop : dictPop st.pending command_id = some (request, rest)) :
    reject_pending cfg st command_id =
      .ok ({ st with
             pending := rest
             log := st.log ++ [logRecord request (py "denied")
               (evaluate cfg request.command) (py "") false] }, []) ∧
    dictGet? rest command_id = none ∧
    (∀ approved_by_user : Bool,
      execute_pending cfg env
        { st with
          pending := rest
          log := st.log ++ [logRecord request (py "denied")
            (evaluate cfg request.command) (py "") false] }
        command_id approved_by_user =
      .error .unknownPendingCommand
        { st with
          pending := rest
          log := st.log ++ [logRecord request (py "denied")
            (evaluate cfg request.command) (py "") false] }) := by
  have habs : dictGet? rest command_id = none :=
    dictPop_rest_get_none st.pending command_id request rest hnd hpop
  refine ⟨?_, habs, fun approved_by_user => ?_⟩
  · unfold reject_pending
    rw [hpop]
  · unfold execute_pending
    rw [dictPop_eq_none_of_get_none _ _ habs]

/-- Witness for C7: rejecting the single pending command of `stPending`
yields `stRejected` with an empty trace, and a subsequent approval of
the same id fails. -/
theorem claim_C7_reject_witness :
    reject_pending cfgA stPending (py "cmd-1") = .ok (stRejected, []) ∧
    dictGet? ([] : List (PyStr × CommandRequest)) (py "cmd-1") = none ∧
    execute_pending cfgA envA stRejected (py "cmd-1") true =
      .error .unknownPendingCommand stRejected := by
  have h := claim_C7_reject cfgA envA stPending (py "cmd-1") reqA []
    (by simp [stPending, initBridge]) (by decide)
  exact ⟨h.1, h.2.1, h.2.2 true⟩

/-- Claim C2: a command matching a destructive pattern, submitted with
`approved = false`: under `safe_mode = true` it returns status
`pending_approval`, the request sits in the pending table under its
command id, and no remote action is taken; under `safe_mode = false`
(same pattern lists) it executes immediately — `send_keys` is issued
and the status is `executed`. -/
theorem claim_C2_submit_destructive (dps wps : List Matcher)
    (env : RemoteEnv) (st : BridgeState) (request : CommandRequest)
    (hmatch : ∃ p ∈ dps, p (pyStrip request.command) = true) :
    (submit_command ⟨true, dps, wps⟩ env st request false).1.status =
      py "pending_approval" ∧
    dictGet? (submit_command ⟨true, dps, wps⟩ env st request false).2.1.pending
      request.command_id = some request ∧
    (submit_command ⟨true, dps, wps⟩ env st request false).2.2 = [] ∧
    (submit_command ⟨false, dps, wps⟩ env st request false).1.status =
      py "executed" ∧
    RemoteAction.sendKeys (paneKeyOf request) request.command ∈
      (submit_command ⟨false, dps, wps⟩ env st request false).2.2 := by
  have hT := evaluate_destructive ⟨true, dps, wps⟩ request.command hmatch
  have hF := evaluate_destructive ⟨false, dps, wps⟩ request.command hmatch
  refine ⟨?_, ?_, ?_, ?_, ?_⟩
  · simp only [submit_command, hT]
    rfl
  · simp only [submit_command, hT]
    exact dictGet?_insert_self st.pending request.command_id request
  · simp only [submit_command, hT]
    rfl
  · simp only [submit_command, hF]
    rfl
  · simp only [submit_command, hF, execRun, paneKeyOf]
    by_cases hfresh :
        (dictGet? st.paneSnapshots
          (request.session, request.window, request.pane)).getD (py "") = [] <;>
      simp [hfresh]

/-- Witness for C2: the concrete destructive command of `reqA` pends
under safe mode on a fresh bridge, and executes immediately with safe
mode off. -/
theorem claim_C2_submit_destructive_witness :
    (submit_command ⟨true, [ciSearch (py "rm -rf /")],
        [ciSearch (py "rm -rf")]⟩ envA initBridge reqA false).1.status =
      py "pending_approval" ∧
    dictGet? (submit_command ⟨true, [ciSearch (py "rm -rf /")],
        [ciSearch (py "rm -rf")]⟩ envA initBridge reqA false).2.1.pending
      reqA.command_id = some reqA ∧
    (submit_command ⟨true, [ciSearch (py "rm -rf /")],
        [ciSearch (py "rm -rf")]⟩ envA initBridge reqA false).2.2 = [] ∧
    (submit_command ⟨false, [ciSearch (py "rm -rf /")],
        [ciSearch (py "rm -rf")]⟩ envA initBridge reqA false).1.status =
      py "executed" ∧
    RemoteAction.sendKeys (paneKeyOf reqA) reqA.command ∈
      (submit_command ⟨false, [ciSearch (py "rm -rf /")],
        [ciSearch (py "rm -rf")]⟩ envA initBridge reqA false).2.2 :=
  claim_C2_submit_destructive [ciSearch (py "rm -rf /")]
    [ciSearch (py "rm -rf")] envA initBridge reqA
    ⟨ciSearch (py "rm -rf /"), by simp, by decide⟩

/-- Claim C8: within one bridge instance the generated command ids are
the prefix `cmd-` followed by a strictly increasing counter, so ids at
distinct steps are distinct; a fresh instance always starts at
`"cmd-1"`, so two distinct fresh instances may generate equal ids. -/
theorem claim_C8_command_ids (st : BridgeState) (i j : Nat) (hij : i < j) :
    nthGeneratedId st i = py "cmd-" ++ Nat.toDigits 10 (st.idCounter + i) ∧
    (stateAfterIds st i).idCounter < (stateAfterIds st j).idCounter ∧
    nthGeneratedId st i ≠ nthGeneratedId st j ∧
    nthGeneratedId initBridge 0 = py "cmd-1" := by
  refine ⟨nthGeneratedId_eq st i, ?_, ?_, by decide⟩
  · rw [stateAfterIds_idCounter, stateAfterIds_idCounter]
    omega
  · rw [nthGeneratedId_eq, nthGeneratedId_eq]
    intro h
    have hdig := List.append_cancel_left h
    have := toDigits_injective _ _ hdig
    omega

/-- Witness for C8 at the first two ids of a fresh bridge. -/
theorem claim_C8_command_ids_witness :
    nthGeneratedId initBridge 0 =
      py "cmd-" ++ Nat.toDigits 10 (initBridge.idCounter + 0) ∧
    (stateAfterIds initBridge 0).idCounter <
      (stateAfterIds initBridge 1).idCounter ∧
    nthGeneratedId initBridge 0 ≠ nthGeneratedId initBridge 1 ∧
    nthGeneratedId initBridge 0 = py "cmd-1" :=
  claim_C8_command_ids initBridge 0 1 (by decide)

/-- Counterexample for C9 as stated: with a cached snapshot equal to the
empty string, the fresh pre-send capture is `"X"` (non-empty), yet the
post capture `"Y"` does not extend it, so the delta equals the full
post-capture text — contradicting "the delta equals the full
post-capture text only when that fresh pre-send capture is itself
empty". -/
theorem claim_C9_counterexample :
    dictGet? stEmptySnapshot.paneSnapshots (paneKeyOf reqB) = some (py "") ∧
    (execRun envScroll stEmptySnapshot reqB ⟨false, false, none⟩ true).1.stdout =
      postCapture envScroll reqB ∧
    preCapture envScroll reqB ≠ [] := by
  refine ⟨by decide, by decide, by decide⟩

/-- Claim C9 (amended): in the shared execute path a cached snapshot
equal to the empty string is treated exactly like a missing cache entry
— the prior snapshot is then taken from a fresh pre-send capture, so
the delta equals the full post-capture text exactly when that fresh
pre-send capture is empty or is not a literal prefix of the
post-capture; the cache for the pane's key is always overwritten with
the full post-capture text afterwards. -/
theorem claim_C9_cached_empty (env : RemoteEnv) (st : BridgeState)
    (request : CommandRequest) (evaluation : SafetyEvaluation)
    (approved : Bool)
    (hcache : (dictGet? st.paneSnapshots (paneKeyOf request)).getD (py "") = []) :
    (execRun env st request evaluation approved).1.stdout =
      calculate_delta (preCapture env request) (postCapture env request) ∧
    ((execRun env st request evaluation approved).1.stdout =
        postCapture env request ↔
      (preCapture env request = [] ∨
        ¬ preCapture env request <+: postCapture env request)) ∧
    dictGet? (execRun env st request evaluation approved).2.1.paneSnapshots
      (paneKeyOf request) = some (postCapture env request) ∧
    (∀ snaps, dictGet? snaps (paneKeyOf request) = none →
      execRun env
        { st with paneSnapshots := dictInsert snaps (paneKeyOf request) (py "") }
        request evaluation approved =
      execRun env { st with paneSnapshots := snaps }
        request evaluation approved) := by
  simp only [paneKeyOf] at hcache
  have hstdout : (execRun env st request evaluation approved).1.stdout =
      calculate_delta (preCapture env request) (postCapture env request) := by
    simp only [execRun, hcache, preCapture, postCapture, paneKeyOf, joinLines]
    simp
  refine ⟨hstdout, ?_, ?_, ?_⟩
  · rw [hstdout]
    exact calculate_delta_eq_full_iff _ _
  · simp only [execRun, postCapture, paneKeyOf, joinLines]
    exact dictGet?_insert_self _ _ _
  · intro snaps hsnaps
    simp only [paneKeyOf] at hsnaps ⊢
    simp only [execRun, dictGet?_insert_self, hsnaps, dictInsert_insert,
      show py "" = [] from rfl, Option.getD_some, Option.getD_none]

/-- Witness for the amended C9 at the concrete scrolled environment:
the delta is computed against the fresh pre-send capture and the cache
ends up holding the full post capture. -/
theorem claim_C9_cached_empty_witness :
    (execRun envScroll stEmptySnapshot reqB ⟨false, false, none⟩
        true).1.stdout =
      calculate_delta (preCapture envScroll reqB)
        (postCapture envScroll reqB) ∧
    dictGet? (execRun envScroll stEmptySnapshot reqB ⟨false, false, none⟩
        true).2.1.paneSnapshots (paneKeyOf reqB) =
      some (postCapture envScroll reqB) := by
  have h := claim_C9_cached_empty envScroll stEmptySnapshot reqB
    ⟨false, false, none⟩ true (by decide)
  exact ⟨h.1, h.2.2.1⟩

/-- Claim C5: on append, rotation happens exactly when the active
file's size plus the incoming record size (serialized length plus
newline) would exceed the byte threshold.  Rotation drops the backup at
the maximum index, shifts each remaining backup up by one, moves the
active file to backup slot 1, and the active file right after rotation
holds only the newly appended record; without a threshold crossing the
active file just grows and the backups are untouched. -/
theorem claim_C5_log_rotation (maxBytes nbackups size serializedLen : Nat)
    (fs : LogFS) (hactive : fs.active = some size) (hnb : 1 ≤ nbackups) :
    (maxBytes < size + (serializedLen + 1) →
      (appendRecord maxBytes nbackups fs serializedLen).active =
        some (serializedLen + 1) ∧
      (appendRecord maxBytes nbackups fs serializedLen).backup 1 =
        some size ∧
      (∀ i, 2 ≤ i → i ≤ nbackups →
        (appendRecord maxBytes nbackups fs serializedLen).backup i =
          fs.backup (i - 1)) ∧
      (∀ i, nbackups < i →
        (appendRecord maxBytes nbackups fs serializedLen).backup i =
          fs.backup i)) ∧
    (size + (serializedLen + 1) ≤ maxBytes →
      (appendRecord maxBytes nbackups fs serializedLen).active =
        some (size + (serializedLen + 1)) ∧
      (appendRecord maxBytes nbackups fs serializedLen).backup =
        fs.backup) := by
  obtain ⟨h1, h2, h3⟩ := rotateBackups_spec nbackups size fs.backup hnb
  constructor
  · intro hover
    have hrot : rotate_if_needed maxBytes nbackups fs (serializedLen + 1) =
        { active := none,
          backup := rotateBackups nbackups size fs.backup } := by
      unfold rotate_if_needed
      rw [hactive]
      simp only [if_neg (by omega : ¬ size + (serializedLen + 1) ≤ maxBytes)]
    refine ⟨?_, ?_, ?_, ?_⟩
    · simp [appendRecord, hrot]
    · simp only [appendRecord, hrot]
      exact h1
    · intro i hi2 hinb
      simp only [appendRecord, hrot]
      exact h2 i hi2 hinb
    · intro i hi
      simp only [appendRecord, hrot]
      exact h3 i hi
  · intro hle
    have hrot : rotate_if_needed maxBytes nbackups fs (serializedLen + 1) = fs := by
      unfold rotate_if_needed
      rw [hactive]
      simp only [if_pos hle]
    constructor
    · simp [appendRecord, hrot, hactive]
    · simp [appendRecord, hrot]

/-- Witness for C5: appending a 5-byte record to an active file of 8
bytes under a 10-byte threshold with 3 backup slots rotates — the
active file then holds exactly the 6 incoming bytes, the old active
file sits in slot 1, slots 2 and 3 hold the former slots 1 and 2, and
slots beyond the backup count stay untouched. -/
theorem claim_C5_log_rotation_witness :
    (appendRecord 10 3 fsA 5).active = some 6 ∧
    (appendRecord 10 3 fsA 5).backup 1 = some 8 ∧
    (appendRecord 10 3 fsA 5).backup 2 = fsA.backup 1 ∧
    (appendRecord 10 3 fsA 5).backup 3 = fsA.backup 2 ∧
    (appendRecord 10 3 fsA 5).backup 4 = fsA.backup 4 := by
  have h := (claim_C5_log_rotation 10 3 8 5 fsA rfl (by decide)).1 (by decide)
  exact ⟨h.1, h.2.1, h.2.2.1 2 (by decide) (by decide),
    h.2.2.1 3 (by decide) (by decide), h.2.2.2 4 (by decide)⟩

end TmuxMcp
